import Mathlib

/-!
Verification of the LetterMatchingFun round generator and session controller.

The development shallowly embeds the game logic of src/App.tsx:
letters are Char values, the JS Math.random draws are modelled by an
explicit source of nondeterminism (a Rand record carrying the target
index, the swap indices consumed by the Fisher-Yates shuffles, and the
two case-choice coin flips), and the React state handlers become pure
functions from Session to Session together with the list of timer
callbacks they schedule.
-/

namespace LetterMatch

/-- Difficulty tiers of the game (type Difficulty in App.tsx). -/
inductive Difficulty where
  | easy
  | medium
  | hard
deriving DecidableEq, Repr

/-- Per-tier settings (the values of DIFFICULTY_SETTINGS in App.tsx). -/
structure Settings where
  lettersPerCircle : Nat
  useLowercase : Bool
deriving DecidableEq, Repr

/-- DIFFICULTY_SETTINGS from App.tsx. -/
def DIFFICULTY_SETTINGS : Difficulty → Settings
  | .easy => { lettersPerCircle := 4, useLowercase := false }
  | .medium => { lettersPerCircle := 6, useLowercase := false }
  | .hard => { lettersPerCircle := 8, useLowercase := true }

/-- ALPHABET_UPPER from App.tsx. -/
def ALPHABET_UPPER : List Char := "ABCDEFGHIJKLMNOPQRSTUVWXYZ".toList

/-- ALPHABET_LOWER from App.tsx. -/
def ALPHABET_LOWER : List Char := "abcdefghijklmnopqrstuvwxyz".toList

/-- Swap of the entries at positions i and j of a list; the effect of the
destructuring assignment in shuffleArray when both indices are in bounds. -/
def listSwap {α : Type*} (l : List α) (i j : Nat) : List α :=
  match l.get? i, l.get? j with
  | some x, some y => (l.set i y).set j x
  | _, _ => l

/-- Fisher-Yates loop of shuffleArray in App.tsx: the countdown variable i
runs from the length minus one down to one, and the random draw
Math.floor(Math.random() * (i + 1)) is modelled as rnd i % (i + 1),
which ranges over exactly the same set of indices 0..i. -/
def fisherAux {α : Type*} (rnd : Nat → Nat) : Nat → List α → List α
  | 0, l => l
  | i + 1, l => fisherAux rnd i (listSwap l (i + 1) (rnd (i + 1) % (i + 2)))

/-- shuffleArray from App.tsx, with the random draws supplied by rnd. -/
def shuffleArray {α : Type*} (rnd : Nat → Nat) (l : List α) : List α :=
  fisherAux rnd (l.length - 1) l

/-- A round as returned by generateRound (interface RoundData in App.tsx). -/
structure RoundData where
  letters1 : List Char
  letters2 : List Char
  matchingLetter : Char
deriving DecidableEq, Repr

/-- One round's worth of random draws consumed by generateRound:
the index of the target concept, the swap draws of the three shuffles,
and the two coin flips of getMatchingLetterWithCase. -/
structure Rand where
  targetIdx : Nat
  poolShuffle : Nat → Nat
  case1 : Bool
  case2 : Bool
  shuffle1 : Nat → Nat
  shuffle2 : Nat → Nat

/-- Filler-pool construction loop of generateRound (step 2 in App.tsx):
scan the shuffled pool, keeping a letter only when its uppercase concept
is not yet in the used set. The accumulator list acc is the fillerPool
array and used is the usedConcepts set. -/
def fillerScan : List Char → List Char → List Char → List Char
  | [], acc, _ => acc
  | letter :: rest, acc, used =>
    if letter.toUpper ∈ used then
      fillerScan rest acc used
    else
      fillerScan rest (acc ++ [letter]) (letter.toUpper :: used)

/-- Circle-filling loop of generateRound (step 3 in App.tsx): consume the
pool while the set has fewer than need members; acc is the insertion-ordered
content of the JS Set, and the returned second component is the unconsumed
remainder of the pool (the part from fillerIndex on). -/
def fillCircle (need : Nat) : List Char → List Char → List Char × List Char
  | acc, [] => (acc, [])
  | acc, x :: rest =>
    if acc.length < need then
      fillCircle need (if x ∈ acc then acc else acc ++ [x]) rest
    else (acc, x :: rest)

/-- Body of generateRound from App.tsx, parameterised by the settings record
it reads (the source reads DIFFICULTY_SETTINGS[difficulty] once and uses
only the settings afterwards). -/
def generateRoundWith (settings : Settings) (r : Rand) : RoundData :=
  let fullLetterPool :=
    if settings.useLowercase then ALPHABET_UPPER ++ ALPHABET_LOWER else ALPHABET_UPPER
  let matchingLetterConcept := ALPHABET_UPPER.getD (r.targetIdx % ALPHABET_UPPER.length) 'A'
  let shuffledFullPool := shuffleArray r.poolShuffle fullLetterPool
  let fillerPool := fillerScan shuffledFullPool [] [matchingLetterConcept]
  let step1 := fillCircle (settings.lettersPerCircle - 1) [] fillerPool
  let lettersForCircle1 := step1.1
  let step2 := fillCircle (settings.lettersPerCircle - 1) [] step1.2
  let lettersForCircle2 := step2.1
  let matching1 :=
    if settings.useLowercase then
      if r.case1 then matchingLetterConcept.toUpper else matchingLetterConcept.toLower
    else matchingLetterConcept
  let matching2 :=
    if settings.useLowercase then
      if r.case2 then matchingLetterConcept.toUpper else matchingLetterConcept.toLower
    else matchingLetterConcept
  { letters1 := shuffleArray r.shuffle1 (lettersForCircle1 ++ [matching1])
    letters2 := shuffleArray r.shuffle2 (lettersForCircle2 ++ [matching2])
    matchingLetter := matchingLetterConcept }

/-- generateRound from App.tsx. -/
def generateRound (difficulty : Difficulty) (r : Rand) : RoundData :=
  generateRoundWith (DIFFICULTY_SETTINGS difficulty) r

/-- Feedback state of the session (the feedback useState in App.tsx). -/
inductive Feedback where
  | idle
  | correct
deriving DecidableEq, Repr

/-- Session state held by the App component: one field per useState hook. -/
structure Session where
  difficulty : Option Difficulty
  roundData : Option RoundData
  score : Nat
  feedback : Feedback
  wrongGuess : Bool
  wrongGuessesInRound : Nat
deriving DecidableEq, Repr

/-- Initial session state (the useState initialisers in App.tsx). -/
def initSession : Session :=
  { difficulty := none, roundData := none, score := 0, feedback := .idle,
    wrongGuess := false, wrongGuessesInRound := 0 }

/-- Pending setTimeout callbacks of App.tsx, each carrying the values its
closure captured at scheduling time: loadRound is the 100ms callback of
startNewRound or handleSelectDifficulty (capturing the difficulty it will
generate for), startNewRoundT is the 1200ms callback of handleLetterClick
(capturing the difficulty the startNewRound closure closed over), and
clearWrongGuess is the 500ms wrong-pulse reset. -/
inductive TimerAction where
  | loadRound (level : Difficulty)
  | startNewRoundT (capturedDifficulty : Option Difficulty)
  | clearWrongGuess
deriving DecidableEq, Repr

/-- startNewRound from App.tsx. The closure reads the difficulty it captured
when it was created (capturedDifficulty) and writes to the current session;
the returned list holds the setTimeout callbacks it schedules. -/
def startNewRound (capturedDifficulty : Option Difficulty) (s : Session) :
    Session × List TimerAction :=
  match capturedDifficulty with
  | none => (s, [])
  | some d =>
    ({ s with feedback := .idle, wrongGuessesInRound := 0, roundData := none },
     [.loadRound d])

/-- handleSelectDifficulty from App.tsx. -/
def handleSelectDifficulty (level : Difficulty) (s : Session) :
    Session × List TimerAction :=
  ({ s with difficulty := some level, score := 0, feedback := .idle,
            wrongGuessesInRound := 0, roundData := none },
   [.loadRound level])

/-- handleBackToMenu from App.tsx. -/
def handleBackToMenu (s : Session) : Session :=
  { s with difficulty := none, roundData := none, score := 0, wrongGuessesInRound := 0 }

/-- handleLetterClick from App.tsx: returns the boolean handed to the Circle
component, the next session state, and the scheduled timer callbacks. -/
def handleLetterClick (clickedLetter : Char) (s : Session) :
    Bool × Session × List TimerAction :=
  if s.feedback ≠ .idle ∨ s.roundData = none then (false, s, [])
  else
    match s.roundData with
    | none => (false, s, [])
    | some rd =>
      if clickedLetter.toUpper = rd.matchingLetter.toUpper then
        (true,
         { s with score := s.score + 1, feedback := .correct },
         [.startNewRoundT s.difficulty])
      else
        (false,
         { s with wrongGuess := true, wrongGuessesInRound := s.wrongGuessesInRound + 1 },
         [.clearWrongGuess])

/-- Firing of a pending setTimeout callback, with r supplying the random
draws consumed if the callback calls generateRound. -/
def fireTimer (a : TimerAction) (r : Rand) (s : Session) : Session × List TimerAction :=
  match a with
  | .loadRound level => ({ s with roundData := some (generateRound level r) }, [])
  | .startNewRoundT cap => startNewRound cap s
  | .clearWrongGuess => ({ s with wrongGuess := false }, [])

/-- Star count rendered on a correct match (the starsToShow binding in
App.tsx); the subtraction is over the integers as in JS. -/
def starsToShow (wrongGuessesInRound : Nat) : Int :=
  max 1 (5 - (wrongGuessesInRound : Int))

/-! ### The shuffle permutes its input -/

/-- Setting a position to the value it already holds changes nothing. -/
theorem set_get_self {α : Type*} :
    ∀ (l : List α) (i : Nat) (x : α), l.get? i = some x → l.set i x = l := by
  intro l
  induction l with
  | nil => intro i x h; simp at h
  | cons a t ih =>
    intro i x h
    cases i with
    | zero =>
      rw [List.get?_cons_zero] at h
      injection h with h
      rw [h]
      rfl
    | succ i =>
      rw [List.get?_cons_succ] at h
      simp only [List.set]
      rw [ih i x h]

/-- Moving the element at position k to the front while writing a at
position k is a permutation of pushing a on the front. -/
theorem cons_set_perm {α : Type*} (a : α) :
    ∀ (t : List α) (k : Nat) (y : α), t.get? k = some y →
      (y :: t.set k a).Perm (a :: t) := by
  intro t
  induction t with
  | nil => intro k y h; simp at h
  | cons b t ih =>
    intro k y h
    cases k with
    | zero =>
      rw [List.get?_cons_zero] at h
      injection h with h
      subst h
      simp only [List.set]
      exact List.Perm.swap a b t
    | succ k =>
      rw [List.get?_cons_succ] at h
      simp only [List.set]
      exact (List.Perm.swap b y _).trans (((ih k y h).cons b).trans (List.Perm.swap a b t))

/-- Exchanging the values at two positions i < j is a permutation. -/
theorem set_set_perm_lt {α : Type*} :
    ∀ (l : List α) (i j : Nat) (x y : α), i < j →
      l.get? i = some x → l.get? j = some y → ((l.set i y).set j x).Perm l := by
  intro l
  induction l with
  | nil => intro i j x y _ hi _; simp at hi
  | cons a t ih =>
    intro i j x y hij hi hj
    cases i with
    | zero =>
      rw [List.get?_cons_zero] at hi
      injection hi with hi
      subst hi
      cases j with
      | zero => exact absurd hij (lt_irrefl 0)
      | succ j =>
        rw [List.get?_cons_succ] at hj
        simp only [List.set]
        exact cons_set_perm a t j y hj
    | succ i =>
      cases j with
      | zero => exact absurd hij (by omega)
      | succ j =>
        rw [List.get?_cons_succ] at hi hj
        simp only [List.set]
        exact (ih i j x y (by omega) hi hj).cons a

/-- listSwap permutes the list. -/
theorem listSwap_perm {α : Type*} (l : List α) (i j : Nat) :
    (listSwap l i j).Perm l := by
  unfold listSwap
  split
  next x y hi hj =>
    rcases Nat.lt_trichotomy i j with h | h | h
    · exact set_set_perm_lt l i j x y h hi hj
    · subst h
      rw [hi] at hj
      injection hj with hj
      subst hj
      rw [set_get_self l i x hi, set_get_self l i x hi]
    · have hne : i ≠ j := by omega
      rw [List.set_comm y x l hne]
      exact set_set_perm_lt l j i y x h hj hi
  next => exact List.Perm.refl l

/-- Every pass of the Fisher-Yates loop permutes the list. -/
theorem fisherAux_perm {α : Type*} (rnd : Nat → Nat) :
    ∀ (n : Nat) (l : List α), (fisherAux rnd n l).Perm l
  | 0, _ => List.Perm.refl _
  | n + 1, l => (fisherAux_perm rnd n _).trans (listSwap_perm l (n + 1) _)

/-- shuffleArray permutes its input, whatever the random draws. -/
theorem shuffleArray_perm {α : Type*} (rnd : Nat → Nat) (l : List α) :
    (shuffleArray rnd l).Perm l :=
  fisherAux_perm rnd _ l

/-! ### Filler-pool scan invariants -/

/-- Letters already accepted stay in the pool the scan returns. -/
theorem fillerScan_sub : ∀ (pool acc used : List Char), ∀ x ∈ acc, x ∈ fillerScan pool acc used
  | [], _, _ => by
    intro x hx
    simpa [fillerScan] using hx
  | letter :: rest, acc, used => by
    intro x hx
    simp only [fillerScan]
    by_cases hc : letter.toUpper ∈ used
    · rw [if_pos hc]
      exact fillerScan_sub rest acc used x hx
    · rw [if_neg hc]
      exact fillerScan_sub rest (acc ++ [letter]) _ x (List.mem_append_left _ hx)

/-- Concepts of the scanned pool are pairwise distinct. -/
theorem fillerScan_nodup : ∀ (pool acc used : List Char),
    (acc.map Char.toUpper).Nodup → (∀ x ∈ acc, x.toUpper ∈ used) →
    ((fillerScan pool acc used).map Char.toUpper).Nodup
  | [], acc, _ => by
    intro h _
    simpa [fillerScan] using h
  | letter :: rest, acc, used => by
    intro h hs
    simp only [fillerScan]
    by_cases hc : letter.toUpper ∈ used
    · rw [if_pos hc]
      exact fillerScan_nodup rest acc used h hs
    · rw [if_neg hc]
      refine fillerScan_nodup rest (acc ++ [letter]) (letter.toUpper :: used) ?_ ?_
      · rw [List.map_append, List.nodup_append]
        refine ⟨h, by simp, ?_⟩
        intro c hcacc hcl
        simp only [List.map_cons, List.map_nil, List.mem_singleton] at hcl
        subst hcl
        obtain ⟨x, hxacc, hxc⟩ := List.mem_map.mp hcacc
        exact hc (hxc ▸ hs x hxacc)
      · intro x hx
        rcases List.mem_append.mp hx with h1 | h1
        · exact List.mem_cons_of_mem _ (hs x h1)
        · rw [List.mem_singleton] at h1
          subst h1
          exact List.mem_cons_self _ _

/-- No letter the scan returns carries a concept that was in the used set
at the start, in particular the target concept. -/
theorem fillerScan_avoid : ∀ (pool acc used : List Char) (c : Char), c ∈ used →
    (∀ x ∈ acc, x.toUpper ≠ c) → ∀ x ∈ fillerScan pool acc used, x.toUpper ≠ c
  | [], acc, _, c => by
    intro hc hacc x hx
    exact hacc x (by simpa [fillerScan] using hx)
  | letter :: rest, acc, used, c => by
    intro hc hacc x hx
    simp only [fillerScan] at hx
    by_cases hcond : letter.toUpper ∈ used
    · rw [if_pos hcond] at hx
      exact fillerScan_avoid rest acc used c hc hacc x hx
    · rw [if_neg hcond] at hx
      refine fillerScan_avoid rest (acc ++ [letter]) (letter.toUpper :: used) c
        (List.mem_cons_of_mem _ hc) ?_ x hx
      intro y hy
      rcases List.mem_append.mp hy with h1 | h1
      · exact hacc y h1
      · rw [List.mem_singleton] at h1
        subst h1
        intro hyc
        exact hcond (hyc ▸ hc)

/-- Every concept present in the scanned pool and not yet used is realised
by some letter of the returned filler pool. -/
theorem fillerScan_complete : ∀ (pool acc used : List Char) (c : Char), c ∉ used →
    (∃ x ∈ pool, x.toUpper = c) → ∃ y ∈ fillerScan pool acc used, y.toUpper = c
  | [], _, _, c => by
    intro _ hex
    simp at hex
  | letter :: rest, acc, used, c => by
    intro hcu hex
    simp only [fillerScan]
    by_cases hcond : letter.toUpper ∈ used
    · rw [if_pos hcond]
      obtain ⟨x, hx, hxc⟩ := hex
      rcases List.mem_cons.mp hx with h1 | h1
      · subst h1
        exact absurd (hxc ▸ hcond) hcu
      · exact fillerScan_complete rest acc used c hcu ⟨x, h1, hxc⟩
    · rw [if_neg hcond]
      by_cases hcl : c = letter.toUpper
      · subst hcl
        exact ⟨letter, fillerScan_sub rest _ _ letter (List.mem_append_right _ (by simp)), rfl⟩
      · obtain ⟨x, hx, hxc⟩ := hex
        rcases List.mem_cons.mp hx with h1 | h1
        · subst h1
          exact absurd hxc.symm hcl
        · refine fillerScan_complete rest (acc ++ [letter]) (letter.toUpper :: used) c ?_ ⟨x, h1, hxc⟩
          intro hmem
          rcases List.mem_cons.mp hmem with h2 | h2
          · exact hcl h2
          · exact hcu h2

/-! ### The circle-filling loop is take and drop on a duplicate-free pool -/

/-- On a duplicate-free pool disjoint from the accumulator, the set-based
filling loop is plain sequential consumption. -/
theorem fillCircle_eq : ∀ (pool acc : List Char) (need : Nat), pool.Nodup →
    (∀ x ∈ pool, x ∉ acc) →
    fillCircle need acc pool =
      (acc ++ pool.take (need - acc.length), pool.drop (need - acc.length))
  | [], acc, need => by
    intro _ _
    simp [fillCircle]
  | x :: rest, acc, need => by
    intro hnd hdisj
    simp only [fillCircle]
    by_cases hlt : acc.length < need
    · rw [if_pos hlt]
      have hxacc : x ∉ acc := hdisj x (by simp)
      rw [if_neg hxacc]
      have hrest : ∀ y ∈ rest, y ∉ acc ++ [x] := by
        intro y hy hmem
        rcases List.mem_append.mp hmem with h1 | h1
        · exact hdisj y (List.mem_cons_of_mem _ hy) h1
        · rw [List.mem_singleton] at h1
          subst h1
          exact (List.nodup_cons.mp hnd).1 hy
      rw [fillCircle_eq rest (acc ++ [x]) need (List.nodup_cons.mp hnd).2 hrest]
      have hm : need - acc.length = (need - (acc ++ [x]).length) + 1 := by
        simp only [List.length_append, List.length_singleton]
        omega
      rw [hm]
      simp [List.take_succ_cons, List.drop_succ_cons, List.append_assoc]
    · rw [if_neg hlt]
      have hz : need - acc.length = 0 := by omega
      rw [hz]
      simp

/-! ### Named components of generateRoundWith

Each definition below names one let-binding of generateRoundWith; the
equation generateRoundWith_eq, proved by rfl, certifies that they are
definitionally the pieces of the source function. -/

/-- Target concept drawn by generateRound (matchingLetterConcept). -/
def targetOf (r : Rand) : Char :=
  ALPHABET_UPPER.getD (r.targetIdx % ALPHABET_UPPER.length) 'A'

/-- Full letter pool of the tier (fullLetterPool). -/
def poolOf (settings : Settings) : List Char :=
  if settings.useLowercase then ALPHABET_UPPER ++ ALPHABET_LOWER else ALPHABET_UPPER

/-- Duplicate-free filler pool of the round (fillerPool). -/
def fillerPoolOf (settings : Settings) (r : Rand) : List Char :=
  fillerScan (shuffleArray r.poolShuffle (poolOf settings)) [] [targetOf r]

/-- Fillers consumed for the first circle (lettersForCircle1). -/
def circleFillers1 (settings : Settings) (r : Rand) : List Char :=
  (fillCircle (settings.lettersPerCircle - 1) [] (fillerPoolOf settings r)).1

/-- Unconsumed remainder of the filler pool after the first circle. -/
def circleRest1 (settings : Settings) (r : Rand) : List Char :=
  (fillCircle (settings.lettersPerCircle - 1) [] (fillerPoolOf settings r)).2

/-- Fillers consumed for the second circle (lettersForCircle2). -/
def circleFillers2 (settings : Settings) (r : Rand) : List Char :=
  (fillCircle (settings.lettersPerCircle - 1) [] (circleRest1 settings r)).1

/-- getMatchingLetterWithCase from App.tsx with the coin flip explicit. -/
def matchingWithCase (useLowercase flip : Bool) (tgt : Char) : Char :=
  if useLowercase then (if flip then tgt.toUpper else tgt.toLower) else tgt

/-- generateRoundWith decomposed into its named components. -/
theorem generateRoundWith_eq (settings : Settings) (r : Rand) :
    generateRoundWith settings r =
      { letters1 := shuffleArray r.shuffle1
          (circleFillers1 settings r ++ [matchingWithCase settings.useLowercase r.case1 (targetOf r)])
        letters2 := shuffleArray r.shuffle2
          (circleFillers2 settings r ++ [matchingWithCase settings.useLowercase r.case2 (targetOf r)])
        matchingLetter := targetOf r } := rfl

/-! ### Alphabet facts -/

/-- Uppercase letters are fixed by toUpper and recovered from toLower. -/
theorem upper_char_facts : ∀ c ∈ ALPHABET_UPPER, c.toUpper = c ∧ c.toLower.toUpper = c := by
  decide

/-- ALPHABET_UPPER has no duplicates. -/
theorem upper_nodup : ALPHABET_UPPER.Nodup := by decide

/-- Removing any one uppercase letter leaves 25. -/
theorem upper_filter_len : ∀ t ∈ ALPHABET_UPPER,
    (ALPHABET_UPPER.filter (fun c => c != t)).length = 25 := by
  decide

/-- The drawn target concept is an uppercase letter. -/
theorem targetOf_mem (r : Rand) : targetOf r ∈ ALPHABET_UPPER := by
  have h26 : ∀ m, m < 26 → ALPHABET_UPPER.getD m 'A' ∈ ALPHABET_UPPER := by decide
  have hlen : ALPHABET_UPPER.length = 26 := rfl
  exact h26 _ (hlen ▸ Nat.mod_lt _ (by omega))

/-- The uppercase alphabet sits inside every tier's full pool. -/
theorem upper_subset_pool (settings : Settings) : ALPHABET_UPPER ⊆ poolOf settings := by
  unfold poolOf
  split
  · exact List.subset_append_left _ _
  · exact List.Subset.refl _

/-- Whatever case the coin flip picks, the concept is the target. -/
theorem matchingWithCase_toUpper (u flip : Bool) (tgt : Char) (h : tgt ∈ ALPHABET_UPPER) :
    (matchingWithCase u flip tgt).toUpper = tgt := by
  obtain ⟨h1, h2⟩ := upper_char_facts tgt h
  unfold matchingWithCase
  cases u <;> cases flip <;> simp [h1, h2]

/-! ### Filler-pool properties -/

/-- Concepts in the filler pool are pairwise distinct. -/
theorem fillerPoolOf_nodup (settings : Settings) (r : Rand) :
    ((fillerPoolOf settings r).map Char.toUpper).Nodup :=
  fillerScan_nodup _ [] [targetOf r] (by simp) (by simp)

/-- No filler-pool letter carries the target concept. -/
theorem fillerPoolOf_avoid (settings : Settings) (r : Rand) :
    ∀ x ∈ fillerPoolOf settings r, x.toUpper ≠ targetOf r :=
  fillerScan_avoid _ [] [targetOf r] (targetOf r) (by simp) (by simp)

/-- The filler pool always holds the 25 non-target concepts. -/
theorem fillerPoolOf_length (settings : Settings) (r : Rand) :
    25 ≤ (fillerPoolOf settings r).length := by
  have htgt : targetOf r ∈ ALPHABET_UPPER := targetOf_mem r
  have hSnd : (ALPHABET_UPPER.filter (fun c => c != targetOf r)).Nodup :=
    upper_nodup.filter _
  have hsub : ALPHABET_UPPER.filter (fun c => c != targetOf r) ⊆
      (fillerPoolOf settings r).map Char.toUpper := by
    intro c hcS
    obtain ⟨hcu, hcb⟩ := List.mem_filter.mp hcS
    have hcn : c ≠ targetOf r := by simpa using hcb
    have hex : ∃ x ∈ shuffleArray r.poolShuffle (poolOf settings), x.toUpper = c :=
      ⟨c, ((shuffleArray_perm _ _).mem_iff).mpr (upper_subset_pool settings hcu),
        (upper_char_facts c hcu).1⟩
    obtain ⟨y, hy, hyc⟩ := fillerScan_complete _ [] [targetOf r] c (by simpa using hcn) hex
    exact List.mem_map.mpr ⟨y, hy, hyc⟩
  have hlen := (hSnd.subperm hsub).length_le
  rw [List.length_map] at hlen
  rw [upper_filter_len (targetOf r) htgt] at hlen
  exact hlen

/-- Letters of the filler pool are pairwise distinct. -/
theorem fillerPoolOf_nodup_letters (settings : Settings) (r : Rand) :
    (fillerPoolOf settings r).Nodup :=
  List.Nodup.of_map Char.toUpper (fillerPoolOf_nodup settings r)

/-- The first circle takes the leading fillers of the pool. -/
theorem circleFillers1_eq (settings : Settings) (r : Rand) :
    circleFillers1 settings r =
      (fillerPoolOf settings r).take (settings.lettersPerCircle - 1) := by
  unfold circleFillers1
  rw [fillCircle_eq _ [] _ (fillerPoolOf_nodup_letters settings r) (by simp)]
  simp

/-- The remainder handed to the second circle is the matching drop. -/
theorem circleRest1_eq (settings : Settings) (r : Rand) :
    circleRest1 settings r =
      (fillerPoolOf settings r).drop (settings.lettersPerCircle - 1) := by
  unfold circleRest1
  rw [fillCircle_eq _ [] _ (fillerPoolOf_nodup_letters settings r) (by simp)]
  simp

/-- The second circle takes the next block of fillers. -/
theorem circleFillers2_eq (settings : Settings) (r : Rand) :
    circleFillers2 settings r =
      ((fillerPoolOf settings r).drop (settings.lettersPerCircle - 1)).take
        (settings.lettersPerCircle - 1) := by
  unfold circleFillers2
  rw [circleRest1_eq]
  rw [fillCircle_eq _ [] _
    ((List.drop_sublist _ _).nodup (fillerPoolOf_nodup_letters settings r)) (by simp)]
  simp

/-- With the shipped pool sizes the first circle gets its full block. -/
theorem circleFillers1_length (settings : Settings) (r : Rand)
    (h : settings.lettersPerCircle - 1 ≤ 25) :
    (circleFillers1 settings r).length = settings.lettersPerCircle - 1 := by
  rw [circleFillers1_eq, List.length_take]
  have := fillerPoolOf_length settings r
  omega

/-- With the shipped pool sizes the second circle gets its full block. -/
theorem circleFillers2_length (settings : Settings) (r : Rand)
    (h : 2 * (settings.lettersPerCircle - 1) ≤ 25) :
    (circleFillers2 settings r).length = settings.lettersPerCircle - 1 := by
  rw [circleFillers2_eq, List.length_take, List.length_drop]
  have := fillerPoolOf_length settings r
  omega

/-- Fillers of the first circle avoid the target concept. -/
theorem circleFillers1_avoid (settings : Settings) (r : Rand) :
    ∀ x ∈ circleFillers1 settings r, x.toUpper ≠ targetOf r := by
  intro x hx
  rw [circleFillers1_eq] at hx
  exact fillerPoolOf_avoid settings r x ((List.take_sublist _ _).subset hx)

/-- Fillers of the second circle avoid the target concept. -/
theorem circleFillers2_avoid (settings : Settings) (r : Rand) :
    ∀ x ∈ circleFillers2 settings r, x.toUpper ≠ targetOf r := by
  intro x hx
  rw [circleFillers2_eq] at hx
  exact fillerPoolOf_avoid settings r x
    ((List.drop_sublist _ _).subset ((List.take_sublist _ _).subset hx))

/-- Concepts within the first circle's fillers are pairwise distinct. -/
theorem circleFillers1_nodup (settings : Settings) (r : Rand) :
    ((circleFillers1 settings r).map Char.toUpper).Nodup := by
  rw [circleFillers1_eq, List.map_take]
  exact (List.take_sublist _ _).nodup (fillerPoolOf_nodup settings r)

/-- Concepts within the second circle's fillers are pairwise distinct. -/
theorem circleFillers2_nodup (settings : Settings) (r : Rand) :
    ((circleFillers2 settings r).map Char.toUpper).Nodup := by
  rw [circleFillers2_eq, List.map_take, List.map_drop]
  exact (List.take_sublist _ _).nodup
    ((List.drop_sublist _ _).nodup (fillerPoolOf_nodup settings r))

/-- Concepts never repeat across the two circles' fillers. -/
theorem circleFillers_disjoint (settings : Settings) (r : Rand) :
    ∀ x ∈ circleFillers1 settings r, ∀ y ∈ circleFillers2 settings r,
      x.toUpper ≠ y.toUpper := by
  intro x hx y hy heq
  rw [circleFillers1_eq] at hx
  rw [circleFillers2_eq] at hy
  have hx' : x.toUpper ∈ ((fillerPoolOf settings r).map Char.toUpper).take
      (settings.lettersPerCircle - 1) := by
    rw [← List.map_take]
    exact List.mem_map.mpr ⟨x, hx, rfl⟩
  have hy0 : y ∈ (fillerPoolOf settings r).drop (settings.lettersPerCircle - 1) :=
    (List.take_sublist _ _).subset hy
  have hy' : y.toUpper ∈ ((fillerPoolOf settings r).map Char.toUpper).drop
      (settings.lettersPerCircle - 1) := by
    rw [← List.map_drop]
    exact List.mem_map.mpr ⟨y, hy0, rfl⟩
  exact List.disjoint_take_drop (fillerPoolOf_nodup settings r) le_rfl hx' (heq ▸ hy')

/-! ### One assembled circle -/

/-- Properties of an assembled, shuffled circle: its length, that it shows
the target concept exactly once, that its concepts are pairwise distinct,
and that each member is either a target instance or one of the fillers. -/
theorem circle_spec (tgt t1 : Char) (fillers : List Char) (rnd : Nat → Nat)
    (hf : ∀ x ∈ fillers, x.toUpper ≠ tgt)
    (hnd : (fillers.map Char.toUpper).Nodup)
    (ht : t1.toUpper = tgt) :
    (shuffleArray rnd (fillers ++ [t1])).length = fillers.length + 1 ∧
    (shuffleArray rnd (fillers ++ [t1])).countP (fun x => x.toUpper == tgt) = 1 ∧
    ((shuffleArray rnd (fillers ++ [t1])).map Char.toUpper).Nodup ∧
    ∀ x ∈ shuffleArray rnd (fillers ++ [t1]), x.toUpper = tgt ∨ x ∈ fillers := by
  have hperm := shuffleArray_perm rnd (fillers ++ [t1])
  refine ⟨?_, ?_, ?_, ?_⟩
  · rw [hperm.length_eq]
    simp
  · rw [hperm.countP_eq]
    rw [List.countP_append]
    have h0 : fillers.countP (fun x => x.toUpper == tgt) = 0 := by
      rw [List.countP_eq_zero]
      intro a ha
      simpa using hf a ha
    rw [h0]
    simp [List.countP_cons, ht]
  · rw [(hperm.map Char.toUpper).nodup_iff]
    rw [List.map_append, List.nodup_append]
    refine ⟨hnd, by simp, ?_⟩
    intro c hc hc1
    simp only [List.map_cons, List.map_nil, List.mem_singleton, ht] at hc1
    subst hc1
    obtain ⟨x, hx, hxc⟩ := List.mem_map.mp hc
    exact hf x hx hxc
  · intro x hx
    rcases List.mem_append.mp (hperm.mem_iff.mp hx) with h1 | h1
    · exact Or.inr h1
    · rw [List.mem_singleton] at h1
      subst h1
      exact Or.inl ht

/-- Master specification of generateRoundWith: as long as the pool of 25
non-target concepts covers both circles, each circle has exactly
lettersPerCircle letters, shows the target concept exactly once, repeats
no concept internally, and the two circles share no filler concept. -/
theorem generateRoundWith_spec (settings : Settings) (r : Rand)
    (h1 : 1 ≤ settings.lettersPerCircle)
    (h2 : 2 * (settings.lettersPerCircle - 1) ≤ 25) :
    (generateRoundWith settings r).letters1.length = settings.lettersPerCircle ∧
    (generateRoundWith settings r).letters2.length = settings.lettersPerCircle ∧
    (generateRoundWith settings r).letters1.countP
        (fun x => x.toUpper == (generateRoundWith settings r).matchingLetter) = 1 ∧
    (generateRoundWith settings r).letters2.countP
        (fun x => x.toUpper == (generateRoundWith settings r).matchingLetter) = 1 ∧
    ((generateRoundWith settings r).letters1.map Char.toUpper).Nodup ∧
    ((generateRoundWith settings r).letters2.map Char.toUpper).Nodup ∧
    (∀ x ∈ (generateRoundWith settings r).letters1,
      ∀ y ∈ (generateRoundWith settings r).letters2,
        x.toUpper = y.toUpper → x.toUpper = (generateRoundWith settings r).matchingLetter) := by
  rw [generateRoundWith_eq]
  dsimp only
  have htm := targetOf_mem r
  have hm1 : (matchingWithCase settings.useLowercase r.case1 (targetOf r)).toUpper = targetOf r :=
    matchingWithCase_toUpper _ _ _ htm
  have hm2 : (matchingWithCase settings.useLowercase r.case2 (targetOf r)).toUpper = targetOf r :=
    matchingWithCase_toUpper _ _ _ htm
  obtain ⟨hl1, hc1, hn1, hmem1⟩ := circle_spec (targetOf r) _ (circleFillers1 settings r)
    r.shuffle1 (circleFillers1_avoid settings r) (circleFillers1_nodup settings r) hm1
  obtain ⟨hl2, hc2, hn2, hmem2⟩ := circle_spec (targetOf r) _ (circleFillers2 settings r)
    r.shuffle2 (circleFillers2_avoid settings r) (circleFillers2_nodup settings r) hm2
  refine ⟨?_, ?_, hc1, hc2, hn1, hn2, ?_⟩
  · rw [hl1, circleFillers1_length settings r (by omega)]
    omega
  · rw [hl2, circleFillers2_length settings r h2]
    omega
  · intro x hx y hy heq
    rcases hmem1 x hx with h | h
    · exact h
    rcases hmem2 y hy with h' | h'
    · exact heq.trans h'
    · exact absurd heq (circleFillers_disjoint settings r x h y h')

/-! ### Click-resolution equations -/

/-- Clicks outside RoundActive are ignored wholesale. -/
theorem handleLetterClick_guard (s : Session) (letter : Char)
    (h : s.feedback ≠ .idle ∨ s.roundData = none) :
    handleLetterClick letter s = (false, s, []) := by
  unfold handleLetterClick
  rw [if_pos h]

/-- Resolution of a matching click in RoundActive. -/
theorem handleLetterClick_match (s : Session) (rd : RoundData) (letter : Char)
    (hf : s.feedback = .idle) (hr : s.roundData = some rd)
    (h : letter.toUpper = rd.matchingLetter.toUpper) :
    handleLetterClick letter s =
      (true, { s with score := s.score + 1, feedback := .correct },
       [.startNewRoundT s.difficulty]) := by
  unfold handleLetterClick
  rw [hf, hr]
  simp [h]

/-- Resolution of a non-matching click in RoundActive. -/
theorem handleLetterClick_nomatch (s : Session) (rd : RoundData) (letter : Char)
    (hf : s.feedback = .idle) (hr : s.roundData = some rd)
    (h : letter.toUpper ≠ rd.matchingLetter.toUpper) :
    handleLetterClick letter s =
      (false, { s with wrongGuess := true,
                       wrongGuessesInRound := s.wrongGuessesInRound + 1 },
       [.clearWrongGuess]) := by
  unfold handleLetterClick
  rw [hf, hr]
  simp [h]

/-! ### Concrete inputs used by witnesses -/

/-- Fixed random source: every draw is zero. -/
def zeroRand : Rand :=
  { targetIdx := 0, poolShuffle := fun _ => 0, case1 := true, case2 := true,
    shuffle1 := fun _ => 0, shuffle2 := fun _ => 0 }

/-- Concrete RoundActive session on the easy tier. -/
def activeEasy : Session :=
  { initSession with difficulty := some .easy,
                     roundData := some (generateRound .easy zeroRand) }

/-! ### Claims -/

/-- C1: in RoundActive (feedbackState idle, round present, targetConcept an
uppercase concept), a click on a letter whose uppercase form equals the
round's targetConcept returns true, increments score by exactly 1 and sets
feedbackState to correct; any other letter returns false, increments
wrongGuessesInCurrentRound by exactly 1, and leaves score, the round, the
difficulty and feedbackState unchanged. -/
theorem claim_C1 (s : Session) (rd : RoundData) (letter : Char)
    (hf : s.feedback = .idle) (hr : s.roundData = some rd)
    (hu : rd.matchingLetter.toUpper = rd.matchingLetter) :
    (letter.toUpper = rd.matchingLetter →
      (handleLetterClick letter s).1 = true ∧
      (handleLetterClick letter s).2.1.score = s.score + 1 ∧
      (handleLetterClick letter s).2.1.feedback = .correct) ∧
    (letter.toUpper ≠ rd.matchingLetter →
      (handleLetterClick letter s).1 = false ∧
      (handleLetterClick letter s).2.1.wrongGuessesInRound = s.wrongGuessesInRound + 1 ∧
      (handleLetterClick letter s).2.1.score = s.score ∧
      (handleLetterClick letter s).2.1.roundData = s.roundData ∧
      (handleLetterClick letter s).2.1.difficulty = s.difficulty ∧
      (handleLetterClick letter s).2.1.feedback = s.feedback) := by
  constructor
  · intro h
    rw [handleLetterClick_match s rd letter hf hr (by rw [hu]; exact h)]
    exact ⟨rfl, rfl, rfl⟩
  · intro h
    rw [handleLetterClick_nomatch s rd letter hf hr (by rw [hu]; exact h)]
    exact ⟨rfl, rfl, rfl, rfl, rfl, rfl⟩

/-- C1 witness: on the concrete easy round with target concept A, clicking
A succeeds and bumps the score, clicking B fails and bumps the wrong-guess
counter. -/
theorem claim_C1_witness :
    ((handleLetterClick 'A' activeEasy).1 = true ∧
     (handleLetterClick 'A' activeEasy).2.1.score = activeEasy.score + 1 ∧
     (handleLetterClick 'A' activeEasy).2.1.feedback = .correct) ∧
    ((handleLetterClick 'B' activeEasy).1 = false ∧
     (handleLetterClick 'B' activeEasy).2.1.wrongGuessesInRound =
       activeEasy.wrongGuessesInRound + 1) := by
  refine ⟨(claim_C1 activeEasy (generateRound .easy zeroRand) 'A' rfl rfl
    (by decide)).1 (by decide), ?_⟩
  have h := (claim_C1 activeEasy (generateRound .easy zeroRand) 'B' rfl rfl
    (by decide)).2 (by decide)
  exact ⟨h.1, h.2.1⟩

/-- C5: a click while feedbackState is not idle or while no round is loaded
returns false and changes nothing; in particular a second click right after
a correct match returns false, changes no field and leaves the score at its
once-incremented value. -/
theorem claim_C5 :
    (∀ (s : Session) (letter : Char), s.feedback ≠ .idle ∨ s.roundData = none →
      handleLetterClick letter s = (false, s, [])) ∧
    (∀ (s : Session) (l1 l2 : Char), (handleLetterClick l1 s).1 = true →
      handleLetterClick l2 (handleLetterClick l1 s).2.1 =
        (false, (handleLetterClick l1 s).2.1, []) ∧
      (handleLetterClick l2 (handleLetterClick l1 s).2.1).2.1.score = s.score + 1) := by
  refine ⟨fun s letter h => handleLetterClick_guard s letter h, ?_⟩
  intro s l1 l2 hb
  by_cases hguard : s.feedback ≠ .idle ∨ s.roundData = none
  · rw [handleLetterClick_guard s l1 hguard] at hb
    exact absurd hb (by simp)
  · push_neg at hguard
    obtain ⟨hf, hrne⟩ := hguard
    obtain ⟨rd, hr⟩ := Option.ne_none_iff_exists'.mp hrne
    by_cases hcmp : l1.toUpper = rd.matchingLetter.toUpper
    · rw [handleLetterClick_match s rd l1 hf hr hcmp]
      constructor
      · exact handleLetterClick_guard _ l2 (Or.inl (by simp))
      · rw [handleLetterClick_guard _ l2 (Or.inl (by simp))]
    · rw [handleLetterClick_nomatch s rd l1 hf hr hcmp] at hb
      exact absurd hb (by simp)

/-- C5 witness: a click while feedback is showing is swallowed, and after a
correct click on the concrete easy round a second click neither changes
state nor double-increments the score. -/
theorem claim_C5_witness :
    handleLetterClick 'B' { activeEasy with feedback := .correct } =
      (false, { activeEasy with feedback := .correct }, []) ∧
    (handleLetterClick 'A' (handleLetterClick 'A' activeEasy).2.1 =
      (false, (handleLetterClick 'A' activeEasy).2.1, []) ∧
     (handleLetterClick 'A' (handleLetterClick 'A' activeEasy).2.1).2.1.score =
       activeEasy.score + 1) :=
  ⟨claim_C5.1 _ 'B' (Or.inl (by decide)), claim_C5.2 activeEasy 'A' 'A' (by decide)⟩

/-- C7: the star reward on a correct match is max(1, 5 minus the round's
wrong guesses): 5 stars for a clean round, 2 after three wrong guesses, a
floor of 1 from four wrong guesses on, and never below 1. -/
theorem claim_C7 :
    starsToShow 0 = 5 ∧ starsToShow 3 = 2 ∧
    (∀ w, 4 ≤ w → starsToShow w = 1) ∧
    (∀ w, 1 ≤ starsToShow w) ∧
    (∀ w, starsToShow w = max 1 (5 - (w : Int))) := by
  refine ⟨by decide, by decide, ?_, fun w => le_max_left 1 _, fun w => rfl⟩
  intro w h
  unfold starsToShow
  rw [max_eq_left (by omega)]

/-- C7 witness: seven wrong guesses still award one star. -/
theorem claim_C7_witness : 4 ≤ 7 ∧ starsToShow 7 = 1 :=
  ⟨by omega, claim_C7.2.2.1 7 (by omega)⟩

/-- C9: handleBackToMenu clears difficulty and round and zeroes score and
wrongGuessesInCurrentRound but leaves feedbackState exactly as it was; a
subsequent selectDifficulty or startNewRound resets it to idle. -/
theorem claim_C9 (s : Session) :
    handleBackToMenu s =
      { difficulty := none, roundData := none, score := 0,
        feedback := s.feedback, wrongGuess := s.wrongGuess, wrongGuessesInRound := 0 } ∧
    (handleBackToMenu s).feedback = s.feedback ∧
    (∀ level : Difficulty,
      (handleSelectDifficulty level (handleBackToMenu s)).1.feedback = .idle) ∧
    (∀ d : Difficulty,
      (startNewRound (some d) (handleBackToMenu s)).1.feedback = .idle) :=
  ⟨rfl, rfl, fun _ => rfl, fun _ => rfl⟩

/-- C10: with no difficulty selected, startNewRound returns at once,
changes no session field and schedules nothing. -/
theorem claim_C10 (s : Session) (h : s.difficulty = none) :
    startNewRound s.difficulty s = (s, []) := by
  rw [h]
  rfl

/-- C10 witness: the initial session has no difficulty and startNewRound
leaves it untouched. -/
theorem claim_C10_witness :
    initSession.difficulty = none ∧
    startNewRound initSession.difficulty initSession = (initSession, []) :=
  ⟨rfl, claim_C10 initSession rfl⟩

/-- Shared bounds: every shipped tier asks for at least one letter per
circle and at most 25 fillers across both circles. -/
theorem shipped_tier_bounds (d : Difficulty) :
    1 ≤ (DIFFICULTY_SETTINGS d).lettersPerCircle ∧
    2 * ((DIFFICULTY_SETTINGS d).lettersPerCircle - 1) ≤ 25 := by
  cases d <;> exact ⟨by decide, by decide⟩

/-- C2: for each shipped tier (easy 4, medium 6, hard 8 letters per
circle), every generated round has circles of exactly lettersPerCircle
letters, each containing exactly one letter whose uppercase form equals
targetConcept. -/
theorem claim_C2 (d : Difficulty) (r : Rand) :
    ((DIFFICULTY_SETTINGS .easy).lettersPerCircle = 4 ∧
     (DIFFICULTY_SETTINGS .medium).lettersPerCircle = 6 ∧
     (DIFFICULTY_SETTINGS .hard).lettersPerCircle = 8) ∧
    (generateRound d r).letters1.length = (DIFFICULTY_SETTINGS d).lettersPerCircle ∧
    (generateRound d r).letters2.length = (DIFFICULTY_SETTINGS d).lettersPerCircle ∧
    (generateRound d r).letters1.countP
      (fun x => x.toUpper == (generateRound d r).matchingLetter) = 1 ∧
    (generateRound d r).letters2.countP
      (fun x => x.toUpper == (generateRound d r).matchingLetter) = 1 := by
  obtain ⟨h1, h2⟩ := shipped_tier_bounds d
  obtain ⟨hA, hB, hC, hD, _, _, _⟩ := generateRoundWith_spec (DIFFICULTY_SETTINGS d) r h1 h2
  exact ⟨by decide, hA, hB, hC, hD⟩

/-- C3: apart from the target concept, no concept appears in both circles
of a generated round: any letter of circleA sharing its uppercase concept
with a letter of circleB carries the target concept. -/
theorem claim_C3 (d : Difficulty) (r : Rand) :
    ∀ x ∈ (generateRound d r).letters1, ∀ y ∈ (generateRound d r).letters2,
      x.toUpper = y.toUpper → x.toUpper = (generateRound d r).matchingLetter := by
  obtain ⟨h1, h2⟩ := shipped_tier_bounds d
  obtain ⟨_, _, _, _, _, _, hX⟩ := generateRoundWith_spec (DIFFICULTY_SETTINGS d) r h1 h2
  exact hX

/-- C3 witness: in the concrete easy round the only concept the two circles
share is the target concept A. -/
theorem claim_C3_witness :
    ('A' ∈ (generateRound .easy zeroRand).letters1 ∧
     'A' ∈ (generateRound .easy zeroRand).letters2) ∧
    'A'.toUpper = (generateRound .easy zeroRand).matchingLetter :=
  ⟨by decide, claim_C3 .easy zeroRand 'A' (by decide) 'A' (by decide) (by decide)⟩

/-- C6: within each circle of a generated round no two letters share an
uppercase concept, and no filler letter carries the target concept. -/
theorem claim_C6 (d : Difficulty) (r : Rand) :
    ((generateRound d r).letters1.map Char.toUpper).Nodup ∧
    ((generateRound d r).letters2.map Char.toUpper).Nodup ∧
    (∀ x ∈ circleFillers1 (DIFFICULTY_SETTINGS d) r,
      x.toUpper ≠ (generateRound d r).matchingLetter) ∧
    (∀ x ∈ circleFillers2 (DIFFICULTY_SETTINGS d) r,
      x.toUpper ≠ (generateRound d r).matchingLetter) := by
  obtain ⟨h1, h2⟩ := shipped_tier_bounds d
  obtain ⟨_, _, _, _, hN1, hN2, _⟩ := generateRoundWith_spec (DIFFICULTY_SETTINGS d) r h1 h2
  exact ⟨hN1, hN2, circleFillers1_avoid _ r, circleFillers2_avoid _ r⟩

/-- C6 witness: B is a filler of the concrete easy round's first circle and
indeed avoids the target concept A. -/
theorem claim_C6_witness :
    'B' ∈ circleFillers1 (DIFFICULTY_SETTINGS .easy) zeroRand ∧
    'B'.toUpper ≠ (generateRound .easy zeroRand).matchingLetter :=
  ⟨by decide, (claim_C6 .easy zeroRand).2.2.1 'B' (by decide)⟩

/-- C4 counterexample: at lettersPerCircle = 14 on an uppercase-only
configuration the filler pool (25 letters) is exhausted: the second circle
receives only 12 fillers and comes out 13 letters long, not 14, refuting
the claim that exhaustion needs lettersPerCircle larger than 14. -/
theorem claim_C4_counterexample :
    (circleFillers2 { lettersPerCircle := 14, useLowercase := false } zeroRand).length = 12 ∧
    (generateRoundWith { lettersPerCircle := 14, useLowercase := false } zeroRand).letters2.length = 13 := by
  constructor <;> decide

/-- C4 amended: for every uppercase-only configuration with lettersPerCircle
between 2 and 13 the partition never exhausts the filler pool: both circles
receive exactly lettersPerCircle - 1 fillers and come out full length (a
shorter circle first becomes reachable at lettersPerCircle = 14). -/
theorem claim_C4 (n : Nat) (r : Rand) (h1 : 2 ≤ n) (h2 : n ≤ 13) :
    (circleFillers1 { lettersPerCircle := n, useLowercase := false } r).length = n - 1 ∧
    (circleFillers2 { lettersPerCircle := n, useLowercase := false } r).length = n - 1 ∧
    (generateRoundWith { lettersPerCircle := n, useLowercase := false } r).letters1.length = n ∧
    (generateRoundWith { lettersPerCircle := n, useLowercase := false } r).letters2.length = n := by
  obtain ⟨hA, hB, _, _, _, _, _⟩ :=
    generateRoundWith_spec { lettersPerCircle := n, useLowercase := false } r
      (by show 1 ≤ n; omega) (by show 2 * (n - 1) ≤ 25; omega)
  refine ⟨?_, ?_, hA, hB⟩
  · exact circleFillers1_length _ r (by show n - 1 ≤ 25; omega)
  · exact circleFillers2_length _ r (by show 2 * (n - 1) ≤ 25; omega)

/-- C4 witness: at the boundary value 13 both circles are full. -/
theorem claim_C4_witness :
    (2 ≤ 13 ∧ (13 : Nat) ≤ 13) ∧
    ((circleFillers1 { lettersPerCircle := 13, useLowercase := false } zeroRand).length = 12 ∧
     (circleFillers2 { lettersPerCircle := 13, useLowercase := false } zeroRand).length = 12 ∧
     (generateRoundWith { lettersPerCircle := 13, useLowercase := false } zeroRand).letters1.length = 13 ∧
     (generateRoundWith { lettersPerCircle := 13, useLowercase := false } zeroRand).letters2.length = 13) :=
  ⟨⟨by omega, by omega⟩, claim_C4 13 zeroRand (by omega) (by omega)⟩

/-! ### The stale-timer trace behind C8

The source never cancels a setTimeout. The trace below selects easy, lets
the 100ms loading timer fire, clicks the correct letter (scheduling the
1200ms startNewRound callback whose closure captured difficulty easy),
switches to hard, and lets the hard loading timer fire; then the stale
1200ms callback fires, followed by the 100ms load it schedules. -/

/-- Session after selecting the easy tier. -/
def traceS1 : Session := (handleSelectDifficulty .easy initSession).1

/-- Session once the easy loading timer has fired (RoundActive). -/
def traceS2 : Session := (fireTimer (.loadRound .easy) zeroRand traceS1).1

/-- Session after the correct click on the easy round. -/
def traceS3 : Session := (handleLetterClick 'A' traceS2).2.1

/-- Session after switching to the hard tier mid-feedback. -/
def traceS4 : Session := (handleSelectDifficulty .hard traceS3).1

/-- Session once the hard loading timer has fired (hard RoundActive). -/
def traceS5 : Session := (fireTimer (.loadRound .hard) zeroRand traceS4).1

/-- Session after the stale 1200ms callback fires. -/
def traceS6 : Session := (fireTimer (.startNewRoundT (some .easy)) zeroRand traceS5).1

/-- Session after the stale callback's own 100ms load fires. -/
def traceS7 : Session := (fireTimer (.loadRound .easy) zeroRand traceS6).1

/-- C8: the code keeps no generation counter and cancels no timer, so the
pending post-correct-match transition is neither cancelled nor superseded
by selectDifficulty: evaluating the trace shows the correct click schedules
a callback that captured difficulty easy, the newer state is an active
8-letter hard round, yet when the stale callback fires it wipes that round
and then loads a 4-letter easy round while difficulty is still hard —
the stale timer does overwrite the newer session state. -/
theorem claim_C8 :
    (handleLetterClick 'A' traceS2).1 = true ∧
    (handleLetterClick 'A' traceS2).2.2 = [.startNewRoundT (some .easy)] ∧
    traceS5.difficulty = some .hard ∧
    (traceS5.roundData.map fun rd => rd.letters1.length) = some 8 ∧
    traceS6.roundData = none ∧
    (fireTimer (.startNewRoundT (some .easy)) zeroRand traceS5).2 = [.loadRound .easy] ∧
    traceS7.difficulty = some .hard ∧
    (traceS7.roundData.map fun rd => rd.letters1.length) = some 4 := by
  refine ⟨by decide, by decide, by decide, by decide, by decide, by decide, by decide, by decide⟩

end LetterMatch
